import Mathlib

/-!
Shallow embedding of `kube_trim/server.py` (metrics sampling, unit parsing,
lookup clients, recommendation report and shutdown summary), together with
theorems settling the specification claims.

Conventions: Python strings are `List Char`; Python `int` is `Int`;
Python floats arising from the report arithmetic (divisions by the literal
`0.9`) are modelled exactly as rationals, with `0.9` read as `9 / 10`.
External `kubectl` invocations are modelled by their outcome: `none` stands
for a `subprocess.CalledProcessError` (the only exception the source
catches), `some out` for a successful call with stdout `out`.
A raised-and-uncaught Python exception is `Except.error ()`.
-/

namespace KubeTrim

/-- Whitespace in the sense of Python `str.strip` / `str.split` and of the
regex class used by `re.split` in the source. -/
def pyIsSpace (c : Char) : Bool :=
  c == ' ' || c == '\t' || c == '\n' || c == '\r' || c == Char.ofNat 11 || c == Char.ofNat 12

/-- Python `s.replace(a, "")` for a one-character pattern `a`. -/
def removeOne (a : Char) : List Char → List Char
  | [] => []
  | c :: rest => if c = a then removeOne a rest else c :: removeOne a rest

/-- Python `s.replace(ab, "")` for a two-character pattern `ab`, removing
non-overlapping occurrences left to right. -/
def removeTwo (a b : Char) : List Char → List Char
  | [] => []
  | [c] => [c]
  | c :: d :: rest =>
    if c = a ∧ d = b then removeTwo a b rest
    else c :: removeTwo a b (d :: rest)

/-- Python `a in s` for a one-character `a`. -/
def containsOne (a : Char) : List Char → Bool
  | [] => false
  | c :: rest => c == a || containsOne a rest

/-- Python `ab in s` for a two-character pattern `ab`. -/
def containsTwo (a b : Char) : List Char → Bool
  | [] => false
  | [_] => false
  | c :: d :: rest => (c == a && d == b) || containsTwo a b (d :: rest)

/-- Python `str.strip()`. -/
def stripL (l : List Char) : List Char :=
  ((l.dropWhile pyIsSpace).reverse.dropWhile pyIsSpace).reverse

/-- Accumulator for splitting at newlines. -/
def splitNlAux : List Char → List Char → List (List Char)
  | acc, [] => [acc.reverse]
  | acc, c :: cs =>
    if c = '\n' then acc.reverse :: splitNlAux [] cs else splitNlAux (c :: acc) cs

/-- Python `s.split("\n")`: split at every newline, keeping empty fields. -/
def splitNl (l : List Char) : List (List Char) :=
  splitNlAux [] l

/-- Accumulator for whitespace splitting without empty fields. -/
def splitWsAux : List Char → List Char → List (List Char)
  | acc, [] => if acc.isEmpty then [] else [acc.reverse]
  | acc, c :: cs =>
    if pyIsSpace c then
      if acc.isEmpty then splitWsAux [] cs else acc.reverse :: splitWsAux [] cs
    else splitWsAux (c :: acc) cs

/-- Python `s.split()` with no argument: split on whitespace runs, discarding
empty fields. -/
def splitWsL (l : List Char) : List (List Char) :=
  splitWsAux [] l

/-- Python `re.split` applied with the whitespace-run pattern of the source:
like `split()` but with an empty field at an end when the string starts or
ends with whitespace, and one empty field on the empty string. -/
def reSplitWs (l : List Char) : List (List Char) :=
  match l with
  | [] => [[]]
  | c :: _ =>
    (if pyIsSpace c then [([] : List Char)] else []) ++ splitWsL l ++
      (if pyIsSpace (l.getLastD 'x') then [([] : List Char)] else [])

/-- Decimal accumulator underlying Python `int()` on digit strings. -/
def parseDigitsAux : List Char → Nat → Option Nat
  | [], acc => some acc
  | c :: cs, acc =>
    if c.isDigit then parseDigitsAux cs (acc * 10 + (c.toNat - 48)) else none

/-- Sign-and-digits part of Python `int()`, applied after stripping. -/
def pyIntCore : List Char → Option Int
  | [] => none
  | c :: cs =>
    if c = '-' then
      if cs = [] then none else (parseDigitsAux cs 0).map (fun n => -(n : Int))
    else if c = '+' then
      if cs = [] then none else (parseDigitsAux cs 0).map (fun n => (n : Int))
    else (parseDigitsAux (c :: cs) 0).map (fun n => (n : Int))

/-- Python `int(s)`: optional sign followed by one or more decimal digits,
surrounding whitespace ignored; `none` models the `ValueError` raised on a
token with no digits. -/
def pyInt (l : List Char) : Option Int :=
  pyIntCore (stripL l)

/-- Decimal value of a digit string. -/
def decVal (l : List Char) : Nat :=
  l.foldl (fun x c => x * 10 + (c.toNat - 48)) 0

/-- CPU token conversion on the node path, `server.py` line 132:
the suffix `m` and any `%` are removed when `m` occurs, otherwise only `%`
is removed, and the remainder is fed to `int()`. -/
def node_cpu_token (cpu : List Char) : Option Int :=
  if containsOne 'm' cpu then pyInt (removeOne '%' (removeOne 'm' cpu))
  else pyInt (removeOne '%' cpu)

/-- CPU token conversion on the pod path, `server.py` line 160; the source
expression is textually identical to the node path. -/
def pod_cpu_token (cpu : List Char) : Option Int :=
  if containsOne 'm' cpu then pyInt (removeOne '%' (removeOne 'm' cpu))
  else pyInt (removeOne '%' cpu)

/-- Memory token conversion on the node path, `server.py` line 133:
`Mi` is scaled by 1024, `Gi` by 1024 * 1024, `Ki` is kept raw, otherwise a
bare number with any `%` removed. -/
def node_memory_token (mem : List Char) : Option Int :=
  if containsTwo 'M' 'i' mem then (pyInt (removeTwo 'M' 'i' mem)).map (fun v => v * 1024)
  else if containsTwo 'G' 'i' mem then
    (pyInt (removeTwo 'G' 'i' mem)).map (fun v => v * 1024 * 1024)
  else if containsTwo 'K' 'i' mem then pyInt (removeTwo 'K' 'i' mem)
  else pyInt (removeOne '%' mem)

/-- Memory token conversion on the pod path, `server.py` line 161:
`Mi` is kept, `Gi` is scaled by 1024, `Ki` is floor-divided by 1024,
otherwise a bare number with any `%` removed. -/
def pod_memory_token (mem : List Char) : Option Int :=
  if containsTwo 'M' 'i' mem then pyInt (removeTwo 'M' 'i' mem)
  else if containsTwo 'G' 'i' mem then (pyInt (removeTwo 'G' 'i' mem)).map (fun v => v * 1024)
  else if containsTwo 'K' 'i' mem then
    (pyInt (removeTwo 'K' 'i' mem)).map (fun v => Int.fdiv v 1024)
  else pyInt (removeOne '%' mem)

/-- Quantity conversion inside `lookup_allocated_memory`, `server.py`
lines 176-183: `Mi` kept, `Gi` scaled by 1024, `Ki` floor-divided by 1024,
otherwise a bare `int()`. -/
def allocated_memory_token (tok : List Char) : Option Int :=
  if containsTwo 'M' 'i' tok then pyInt (removeTwo 'M' 'i' tok)
  else if containsTwo 'G' 'i' tok then (pyInt (removeTwo 'G' 'i' tok)).map (fun v => v * 1024)
  else if containsTwo 'K' 'i' tok then
    (pyInt (removeTwo 'K' 'i' tok)).map (fun v => Int.fdiv v 1024)
  else pyInt tok

/-- Model of `lookup_pod_image` (lines 188-194): on a successful query the
stripped stdout is returned verbatim; a `CalledProcessError` yields the
literal string `"unknown"`. -/
def lookup_pod_image (queryResult : Option (List Char)) : List Char :=
  match queryResult with
  | none => ("unknown".data)
  | some out => stripL out

/-- Model of `lookup_allocated_memory` (lines 168-186): a failed query or an
empty (after stripping) result yields 0; otherwise the first
whitespace-separated token is converted, and a digit-free token raises the
uncaught `ValueError` of `int()`, modelled as `Except.error`. -/
def lookup_allocated_memory (queryResult : Option (List Char)) : Except Unit Int :=
  match queryResult with
  | none => .ok 0
  | some out =>
    let allocated := stripL out
    if allocated.isEmpty then .ok 0
    else
      match allocated_memory_token ((splitWsL allocated).headD ("0".data)) with
      | some v => .ok v
      | none => .error ()

/-- One row of `node_metrics_df`. -/
structure NodeRow where
  timestamp : Nat
  node : List Char
  cpu : Int
  memory : Int
deriving DecidableEq

/-- One row of `pod_metrics_df`; `ns` is the namespace column. -/
structure PodRow where
  timestamp : Nat
  pod : List Char
  ns : List Char
  cpu : Int
  memory : Int
  image : List Char
deriving DecidableEq

/-- One line of the loop in `parse_node_metrics` (lines 127-134): lines with
fewer than 3 whitespace-separated fields are skipped; a quantity on which
`int()` fails raises, modelled as `Except.error`. -/
def parse_node_line (timestamp : Nat) (line : List Char) : Except Unit (Option NodeRow) :=
  let parts := reSplitWs line
  if 3 ≤ parts.length then
    match node_cpu_token (parts.getD 1 []), node_memory_token (parts.getD 2 []) with
    | some c, some m => .ok (some ⟨timestamp, parts.getD 0 [], c, m⟩)
    | _, _ => .error ()
  else .ok none

/-- Folds `parse_node_line` over the data lines; the first raised error aborts
the whole traversal, as the Python `for` loop does. -/
def parse_node_lines (timestamp : Nat) : List (List Char) → Except Unit (List NodeRow)
  | [] => .ok []
  | l :: ls =>
    match parse_node_line timestamp l with
    | .error e => .error e
    | .ok none => parse_node_lines timestamp ls
    | .ok (some row) =>
      match parse_node_lines timestamp ls with
      | .error e => .error e
      | .ok rows => .ok (row :: rows)

/-- Model of `parse_node_metrics` (lines 122-135): strip the output, drop the
header line, parse the rest. The function has no exception handler, so an
`int()` failure aborts with no rows appended at all (the `pd.concat` at
line 135 is never reached) and the error propagates to the caller. -/
def parse_node_metrics (output : List Char) (timestamp : Nat) : Except Unit (List NodeRow) :=
  parse_node_lines timestamp ((splitNl (stripL output)).drop 1)

/-- Model of `process_pod_metrics` (lines 157-166): any exception inside the
body is caught and turned into `None`, so the caller drops just that line.
The argument `imageQuery ns pod` models the outcome of the image lookup
subprocess for that pod. -/
def process_pod_metrics (imageQuery : List Char → List Char → Option (List Char))
    (timestamp : Nat) (ns pod cpu memory : List Char) : Option PodRow :=
  match pod_cpu_token cpu, pod_memory_token memory with
  | some c, some m => some ⟨timestamp, pod, ns, c, m, lookup_pod_image (imageQuery ns pod)⟩
  | _, _ => none

/-- Model of `parse_pod_metrics` (lines 138-155): strip, drop the header,
keep lines with at least 5 whitespace-separated fields, process each and
discard the `None` results. This path never raises. -/
def parse_pod_metrics (imageQuery : List Char → List Char → Option (List Char))
    (output : List Char) (timestamp : Nat) : List PodRow :=
  ((splitNl (stripL output)).drop 1).filterMap (fun line =>
    let parts := reSplitWs line
    if 5 ≤ parts.length then
      process_pod_metrics imageQuery timestamp (parts.getD 0 []) (parts.getD 1 [])
        (parts.getD 2 []) (parts.getD 3 [])
    else none)

/-- The two accumulating DataFrames. -/
structure Tables where
  node_metrics_df : List NodeRow
  pod_metrics_df : List PodRow
deriving DecidableEq

/-- One iteration of the `collect_metrics` loop body (lines 14-27).
`nodeFetch` and `podFetch` model the two `kubectl top` calls, `none` standing
for a `CalledProcessError` (caught inside the collectors, which then return
the empty string). The loop body itself has no exception handler, so an error
raised by `parse_node_metrics` propagates and kills the collector thread. -/
def collect_cycle (nodeFetch podFetch : Option (List Char))
    (imageQuery : List Char → List Char → Option (List Char))
    (timestamp : Nat) (st : Tables) : Except Unit Tables :=
  let node_output := nodeFetch.getD []
  let pod_output := podFetch.getD []
  match (if node_output.isEmpty then Except.ok [] else parse_node_metrics node_output timestamp :
      Except Unit (List NodeRow)) with
  | .error e => .error e
  | .ok nodeRows =>
    let podRows :=
      if pod_output.isEmpty then [] else parse_pod_metrics imageQuery pod_output timestamp
    .ok ⟨st.node_metrics_df ++ nodeRows, st.pod_metrics_df ++ podRows⟩

/-- One record of the `/report` response (lines 62-74), fields in source
order; numeric fields are exact rationals. -/
structure Recommendation where
  image : List Char
  avg_cpu : ℚ
  max_cpu : ℚ
  avg_memory : ℚ
  max_memory : ℚ
  requested_cpu : ℚ
  requested_memory : ℚ
  recommended_cpu : ℚ
  recommended_memory : ℚ
  cpu_over_provisioned : ℚ
  memory_over_provisioned : ℚ
deriving DecidableEq

/-- Pandas `unique()` over the image column: distinct values in order of
first occurrence. -/
def uniqueImages : List PodRow → List (List Char)
  | [] => []
  | r :: rs => r.image :: (uniqueImages rs).filter (fun i => decide (i ≠ r.image))

/-- The rows of the table whose image equals `img` (line 52). -/
def imageGroup (rows : List PodRow) (img : List Char) : List PodRow :=
  rows.filter (fun r => decide (r.image = img))

/-- Pandas `.mean()` of an integer column, as an exact rational. -/
def meanQ (l : List Int) : ℚ :=
  if l.isEmpty then 0 else ((l.sum : Int) : ℚ) / (l.length : ℚ)

/-- Pandas `.max()` of an integer column; groups are never empty in use. -/
def listMax : List Int → Int
  | [] => 0
  | x :: xs => xs.foldl max x

/-- Body of the `/report` loop for one image (lines 52-74). The allocated
memory lookup may raise; the error propagates out of the loop to the route
handler. -/
def computeRec (memQuery : List Char → List Char → Option (List Char))
    (rows : List PodRow) (img : List Char) : Except Unit Recommendation :=
  match imageGroup rows img with
  | [] => .error ()
  | r0 :: rest =>
    match lookup_allocated_memory (memQuery r0.ns r0.pod) with
    | .error e => .error e
    | .ok alloc =>
      let g := r0 :: rest
      let avg_cpu := meanQ (g.map (fun r => r.cpu))
      let max_cpu : ℚ := ((listMax (g.map (fun r => r.cpu)) : Int) : ℚ)
      let avg_memory := meanQ (g.map (fun r => r.memory))
      let max_memory : ℚ := ((listMax (g.map (fun r => r.memory)) : Int) : ℚ)
      let allocated : ℚ := (alloc : ℚ)
      let recommended_cpu : ℚ := if avg_cpu > 0 then avg_cpu / (9 / 10) else 1
      let recommended_memory : ℚ := if max_memory > 0 then max_memory / (9 / 10) else 1
      let cpu_over : ℚ := if recommended_cpu > 0 then max_cpu / recommended_cpu else 0
      let memory_over : ℚ := if recommended_memory > 0 then allocated / recommended_memory else 0
      .ok ⟨img, avg_cpu, max_cpu, avg_memory, max_memory, max_cpu, allocated,
        recommended_cpu, recommended_memory, cpu_over, memory_over⟩

/-- Sequencing of a fallible map, matching the Python `for` loop that appends
one record per image and lets the first exception abort the whole loop. -/
def mapExcept (f : α → Except ε β) : List α → Except ε (List β)
  | [] => .ok []
  | x :: xs =>
    match f x with
    | .error e => .error e
    | .ok y =>
      match mapExcept f xs with
      | .error e => .error e
      | .ok ys => .ok (y :: ys)

/-- Model of `get_report` (lines 47-75): empty table gives an empty report,
otherwise one record per distinct image in first-occurrence order. -/
def get_report (memQuery : List Char → List Char → Option (List Char))
    (rows : List PodRow) : Except Unit (List Recommendation) :=
  if rows.isEmpty then .ok []
  else mapExcept (computeRec memQuery rows) (uniqueImages rows)

/-- Per-image recommended CPU printed by `summarize_metrics` (lines 217-219):
`max_cpu / 0.9`, emitted only when `max_cpu > 0`. -/
def summarize_image_cpu_rec (rows : List PodRow) (img : List Char) : Option ℚ :=
  let max_cpu := listMax ((imageGroup rows img).map (fun r => r.cpu))
  if max_cpu > 0 then some (((max_cpu : Int) : ℚ) / (9 / 10)) else none

/-- Per-image recommended memory printed by `summarize_metrics`
(lines 220-225): `allocated * 0.9` when a positive allocation is looked up,
`max_memory / 0.9` otherwise; emitted only when `max_memory > 0`. -/
def summarize_image_mem_rec (memQuery : List Char → List Char → Option (List Char))
    (rows : List PodRow) (img : List Char) : Except Unit (Option ℚ) :=
  let g := imageGroup rows img
  let max_memory := listMax (g.map (fun r => r.memory))
  if max_memory > 0 then
    match g with
    | [] => .error ()
    | r0 :: _ =>
      match lookup_allocated_memory (memQuery r0.ns r0.pod) with
      | .error e => .error e
      | .ok alloc =>
        .ok (some (if alloc > 0 then (alloc : ℚ) * (9 / 10)
          else ((max_memory : Int) : ℚ) / (9 / 10)))
  else .ok none

/-! Helper lemmas about the string primitives. -/

theorem containsOne_iff (a : Char) : ∀ l : List Char, containsOne a l = true ↔ a ∈ l
  | [] => by simp [containsOne]
  | c :: rest => by
    rw [containsOne]
    simp only [Bool.or_eq_true, beq_iff_eq, containsOne_iff a rest, List.mem_cons]
    exact or_congr ⟨fun h => h.symm, fun h => h.symm⟩ Iff.rfl

theorem containsOne_eq_false {a : Char} {l : List Char} (h : a ∉ l) :
    containsOne a l = false := by
  cases hc : containsOne a l with
  | false => rfl
  | true => exact absurd ((containsOne_iff a l).mp hc) h

theorem containsOne_eq_true {a : Char} {l : List Char} (h : a ∈ l) :
    containsOne a l = true :=
  (containsOne_iff a l).mpr h

theorem containsTwo_eq_false {a b : Char} : ∀ l : List Char, a ∉ l → containsTwo a b l = false
  | [], _ => rfl
  | [_], _ => rfl
  | c :: d :: rest, h => by
    have hc : ¬(c == a) = true := by
      simp only [beq_iff_eq]
      intro e
      exact h (e ▸ List.mem_cons_self c (d :: rest))
    have h' : a ∉ d :: rest := fun hm => h (List.mem_cons_of_mem c hm)
    simp [containsTwo, containsTwo_eq_false (d :: rest) h', Bool.and_eq_true, hc]

theorem containsTwo_append_self {a b : Char} : ∀ l : List Char,
    containsTwo a b (l ++ [a, b]) = true
  | [] => by simp [containsTwo]
  | [c] => by simp [containsTwo]
  | c :: d :: rest => by
    have ih := containsTwo_append_self (a := a) (b := b) (d :: rest)
    simp only [List.cons_append] at ih ⊢
    simp [containsTwo, ih]

theorem removeOne_append (a : Char) : ∀ l₁ l₂ : List Char,
    removeOne a (l₁ ++ l₂) = removeOne a l₁ ++ removeOne a l₂
  | [], _ => rfl
  | c :: rest, l₂ => by
    by_cases hc : c = a <;> simp [removeOne, hc, removeOne_append a rest l₂]

theorem removeOne_of_not_mem {a : Char} : ∀ {l : List Char}, a ∉ l → removeOne a l = l
  | [], _ => rfl
  | c :: rest, h => by
    have hc : ¬(c = a) := fun e => h (e ▸ List.mem_cons_self c rest)
    have h' : a ∉ rest := fun hm => h (List.mem_cons_of_mem c hm)
    simp [removeOne, hc, removeOne_of_not_mem h']

theorem removeOne_append_single {a : Char} {l : List Char} (h : a ∉ l) :
    removeOne a (l ++ [a]) = l := by
  simp [removeOne_append, removeOne_of_not_mem h, removeOne]

theorem removeTwo_append_pat {a b : Char} : ∀ l : List Char, a ∉ l →
    removeTwo a b (l ++ [a, b]) = l
  | [], _ => by simp [removeTwo]
  | [c], h => by
    have hc : ¬(c = a ∧ a = b) := fun e => (h (by simp [e.1]))
    have hab : removeTwo a b [a, b] = [] := by simp [removeTwo]
    simp only [List.cons_append, List.nil_append]
    rw [removeTwo, if_neg hc, hab]
  | c :: d :: rest, h => by
    have hc : ¬(c = a ∧ d = b) := fun e => (h (by simp [e.1]))
    have h' : a ∉ d :: rest := fun hm => h (List.mem_cons_of_mem c hm)
    have ih := removeTwo_append_pat (a := a) (b := b) (d :: rest) h'
    simp only [List.cons_append] at ih ⊢
    rw [removeTwo, if_neg hc, ih]

/-! Facts about digit strings. -/

theorem ne_of_isDigit {c x : Char} (h : c.isDigit = true) (hx : x.isDigit = false) :
    c ≠ x := by
  intro e
  rw [e, hx] at h
  exact Bool.false_ne_true h

theorem not_mem_of_digits {d : List Char} {x : Char}
    (hd : ∀ c ∈ d, c.isDigit = true) (hx : x.isDigit = false) : x ∉ d := by
  intro hm
  have := hd x hm
  rw [hx] at this
  exact Bool.false_ne_true this

theorem pyIsSpace_of_isDigit {c : Char} (h : c.isDigit = true) : pyIsSpace c = false := by
  cases hc : pyIsSpace c with
  | false => rfl
  | true =>
    exfalso
    simp only [pyIsSpace, Bool.or_eq_true, beq_iff_eq] at hc
    rcases hc with ((((e | e) | e) | e) | e) | e <;> rw [e] at h <;> exact absurd h (by decide)

theorem dropWhile_eq_self {p : Char → Bool} {l : List Char}
    (h : ∀ c ∈ l, p c = false) : l.dropWhile p = l := by
  cases l with
  | nil => rfl
  | cons c cs => rw [List.dropWhile_cons, h c (List.mem_cons_self c cs)]; simp

theorem stripL_eq_self {l : List Char} (h : ∀ c ∈ l, pyIsSpace c = false) :
    stripL l = l := by
  unfold stripL
  rw [dropWhile_eq_self h, dropWhile_eq_self (fun c hc => h c (List.mem_reverse.mp hc)),
    List.reverse_reverse]

theorem parseDigitsAux_digits : ∀ l : List Char, (∀ c ∈ l, c.isDigit = true) → ∀ a : Nat,
    parseDigitsAux l a = some (l.foldl (fun x c => x * 10 + (c.toNat - 48)) a)
  | [], _, a => rfl
  | c :: cs, h, a => by
    have hc := h c (List.mem_cons_self c cs)
    have ih := parseDigitsAux_digits cs (fun x hx => h x (List.mem_cons_of_mem c hx))
    simp [parseDigitsAux, hc, ih, List.foldl_cons]

theorem pyInt_digits {d : List Char} (hd : ∀ c ∈ d, c.isDigit = true) (hne : d ≠ []) :
    pyInt d = some ((decVal d : Nat) : Int) := by
  have hs : stripL d = d := stripL_eq_self (fun c hc => pyIsSpace_of_isDigit (hd c hc))
  obtain ⟨c, cs, rfl⟩ : ∃ c cs, d = c :: cs := by
    cases d with
    | nil => exact absurd rfl hne
    | cons c cs => exact ⟨c, cs, rfl⟩
  have hc := hd c (List.mem_cons_self c cs)
  have hcm : ¬(c = '-') := ne_of_isDigit hc (by decide)
  have hcp : ¬(c = '+') := ne_of_isDigit hc (by decide)
  rw [pyInt, hs, pyIntCore, if_neg hcm, if_neg hcp, parseDigitsAux_digits (c :: cs) hd 0]
  rfl

theorem splitWsAux_no_space : ∀ l : List Char, (∀ c ∈ l, pyIsSpace c = false) →
    ∀ acc : List Char,
      splitWsAux acc l = if acc = [] ∧ l = [] then [] else [acc.reverse ++ l]
  | [], _, acc => by
    cases acc with
    | nil => simp [splitWsAux]
    | cons x xs => simp [splitWsAux]
  | c :: cs, h, acc => by
    have hc := h c (List.mem_cons_self c cs)
    have ih := splitWsAux_no_space cs (fun x hx => h x (List.mem_cons_of_mem c hx)) (c :: acc)
    rw [splitWsAux, hc]
    simp only [Bool.false_eq_true, if_false, reduceCtorEq, and_false, List.cons_ne_nil] at ih ⊢
    rw [ih]
    simp

theorem splitWsL_single {l : List Char} (hne : l ≠ [])
    (h : ∀ c ∈ l, pyIsSpace c = false) : splitWsL l = [l] := by
  rw [splitWsL, splitWsAux_no_space l h []]
  simp [hne]

theorem no_space_append {d l₂ : List Char} (hd : ∀ c ∈ d, c.isDigit = true)
    (h₂ : ∀ c ∈ l₂, pyIsSpace c = false) : ∀ c ∈ d ++ l₂, pyIsSpace c = false := by
  intro c hc
  rcases List.mem_append.mp hc with h | h
  · exact pyIsSpace_of_isDigit (hd c h)
  · exact h₂ c h

theorem not_mem_append_two {d : List Char} {x a b : Char}
    (hx : x ∉ d) (ha : x ≠ a) (hb : x ≠ b) : x ∉ d ++ [a, b] := by
  intro hm
  rcases List.mem_append.mp hm with h | h
  · exact hx h
  · simp only [List.mem_cons, List.mem_singleton, List.not_mem_nil, or_false] at h
    rcases h with h | h
    · exact ha h
    · exact hb h

theorem int_fdiv_natCast (m : Nat) : Int.fdiv (m : Int) 1024 = ((m / 1024 : Nat) : Int) :=
  (Int.ofNat_fdiv m 1024).symm

/-! Evaluation of the token converters on well-formed digit tokens. -/

theorem pod_memory_token_mi {d : List Char} (hd : ∀ c ∈ d, c.isDigit = true) (hne : d ≠ []) :
    pod_memory_token (d ++ ['M', 'i']) = some ((decVal d : Nat) : Int) := by
  have hM : 'M' ∉ d := not_mem_of_digits hd (by decide)
  rw [pod_memory_token, if_pos (containsTwo_append_self d), removeTwo_append_pat d hM,
    pyInt_digits hd hne]

theorem pod_memory_token_gi {d : List Char} (hd : ∀ c ∈ d, c.isDigit = true) (hne : d ≠ []) :
    pod_memory_token (d ++ ['G', 'i']) = some (((decVal d : Nat) : Int) * 1024) := by
  have hM : 'M' ∉ d := not_mem_of_digits hd (by decide)
  have hG : 'G' ∉ d := not_mem_of_digits hd (by decide)
  have hMfalse : containsTwo 'M' 'i' (d ++ ['G', 'i']) = false :=
    containsTwo_eq_false _ (not_mem_append_two hM (by decide) (by decide))
  rw [pod_memory_token, if_neg (by simp [hMfalse]), if_pos (containsTwo_append_self d),
    removeTwo_append_pat d hG, pyInt_digits hd hne, Option.map_some']

theorem pod_memory_token_ki {d : List Char} (hd : ∀ c ∈ d, c.isDigit = true) (hne : d ≠ []) :
    pod_memory_token (d ++ ['K', 'i']) = some ((decVal d / 1024 : Nat) : Int) := by
  have hM : 'M' ∉ d := not_mem_of_digits hd (by decide)
  have hG : 'G' ∉ d := not_mem_of_digits hd (by decide)
  have hK : 'K' ∉ d := not_mem_of_digits hd (by decide)
  have hMfalse : containsTwo 'M' 'i' (d ++ ['K', 'i']) = false :=
    containsTwo_eq_false _ (not_mem_append_two hM (by decide) (by decide))
  have hGfalse : containsTwo 'G' 'i' (d ++ ['K', 'i']) = false :=
    containsTwo_eq_false _ (not_mem_append_two hG (by decide) (by decide))
  rw [pod_memory_token, if_neg (by simp [hMfalse]), if_neg (by simp [hGfalse]),
    if_pos (containsTwo_append_self d), removeTwo_append_pat d hK, pyInt_digits hd hne,
    Option.map_some', int_fdiv_natCast]

theorem node_memory_token_mi {d : List Char} (hd : ∀ c ∈ d, c.isDigit = true) (hne : d ≠ []) :
    node_memory_token (d ++ ['M', 'i']) = some (((decVal d : Nat) : Int) * 1024) := by
  have hM : 'M' ∉ d := not_mem_of_digits hd (by decide)
  rw [node_memory_token, if_pos (containsTwo_append_self d), removeTwo_append_pat d hM,
    pyInt_digits hd hne, Option.map_some']

theorem node_memory_token_gi {d : List Char} (hd : ∀ c ∈ d, c.isDigit = true) (hne : d ≠ []) :
    node_memory_token (d ++ ['G', 'i']) = some (((decVal d : Nat) : Int) * 1024 * 1024) := by
  have hM : 'M' ∉ d := not_mem_of_digits hd (by decide)
  have hG : 'G' ∉ d := not_mem_of_digits hd (by decide)
  have hMfalse : containsTwo 'M' 'i' (d ++ ['G', 'i']) = false :=
    containsTwo_eq_false _ (not_mem_append_two hM (by decide) (by decide))
  rw [node_memory_token, if_neg (by simp [hMfalse]), if_pos (containsTwo_append_self d),
    removeTwo_append_pat d hG, pyInt_digits hd hne, Option.map_some']

theorem node_memory_token_ki {d : List Char} (hd : ∀ c ∈ d, c.isDigit = true) (hne : d ≠ []) :
    node_memory_token (d ++ ['K', 'i']) = some ((decVal d : Nat) : Int) := by
  have hM : 'M' ∉ d := not_mem_of_digits hd (by decide)
  have hG : 'G' ∉ d := not_mem_of_digits hd (by decide)
  have hK : 'K' ∉ d := not_mem_of_digits hd (by decide)
  have hMfalse : containsTwo 'M' 'i' (d ++ ['K', 'i']) = false :=
    containsTwo_eq_false _ (not_mem_append_two hM (by decide) (by decide))
  have hGfalse : containsTwo 'G' 'i' (d ++ ['K', 'i']) = false :=
    containsTwo_eq_false _ (not_mem_append_two hG (by decide) (by decide))
  rw [node_memory_token, if_neg (by simp [hMfalse]), if_neg (by simp [hGfalse]),
    if_pos (containsTwo_append_self d), removeTwo_append_pat d hK, pyInt_digits hd hne]

theorem allocated_memory_token_mi {d : List Char} (hd : ∀ c ∈ d, c.isDigit = true)
    (hne : d ≠ []) : allocated_memory_token (d ++ ['M', 'i']) = some ((decVal d : Nat) : Int) := by
  have hM : 'M' ∉ d := not_mem_of_digits hd (by decide)
  rw [allocated_memory_token, if_pos (containsTwo_append_self d), removeTwo_append_pat d hM,
    pyInt_digits hd hne]

theorem allocated_memory_token_gi {d : List Char} (hd : ∀ c ∈ d, c.isDigit = true)
    (hne : d ≠ []) :
    allocated_memory_token (d ++ ['G', 'i']) = some (((decVal d : Nat) : Int) * 1024) := by
  have hM : 'M' ∉ d := not_mem_of_digits hd (by decide)
  have hG : 'G' ∉ d := not_mem_of_digits hd (by decide)
  have hMfalse : containsTwo 'M' 'i' (d ++ ['G', 'i']) = false :=
    containsTwo_eq_false _ (not_mem_append_two hM (by decide) (by decide))
  rw [allocated_memory_token, if_neg (by simp [hMfalse]), if_pos (containsTwo_append_self d),
    removeTwo_append_pat d hG, pyInt_digits hd hne, Option.map_some']

theorem allocated_memory_token_ki {d : List Char} (hd : ∀ c ∈ d, c.isDigit = true)
    (hne : d ≠ []) :
    allocated_memory_token (d ++ ['K', 'i']) = some ((decVal d / 1024 : Nat) : Int) := by
  have hM : 'M' ∉ d := not_mem_of_digits hd (by decide)
  have hG : 'G' ∉ d := not_mem_of_digits hd (by decide)
  have hK : 'K' ∉ d := not_mem_of_digits hd (by decide)
  have hMfalse : containsTwo 'M' 'i' (d ++ ['K', 'i']) = false :=
    containsTwo_eq_false _ (not_mem_append_two hM (by decide) (by decide))
  have hGfalse : containsTwo 'G' 'i' (d ++ ['K', 'i']) = false :=
    containsTwo_eq_false _ (not_mem_append_two hG (by decide) (by decide))
  rw [allocated_memory_token, if_neg (by simp [hMfalse]), if_neg (by simp [hGfalse]),
    if_pos (containsTwo_append_self d), removeTwo_append_pat d hK, pyInt_digits hd hne,
    Option.map_some', int_fdiv_natCast]

theorem node_cpu_token_m {d : List Char} (hd : ∀ c ∈ d, c.isDigit = true) (hne : d ≠ []) :
    node_cpu_token (d ++ ['m']) = some ((decVal d : Nat) : Int) := by
  have hm : 'm' ∉ d := not_mem_of_digits hd (by decide)
  have hp : '%' ∉ d := not_mem_of_digits hd (by decide)
  rw [node_cpu_token,
    if_pos (containsOne_eq_true (List.mem_append_right d (List.mem_singleton.mpr rfl))),
    removeOne_append_single hm, removeOne_of_not_mem hp, pyInt_digits hd hne]

theorem node_cpu_token_pct {d : List Char} (hd : ∀ c ∈ d, c.isDigit = true) (hne : d ≠ []) :
    node_cpu_token (d ++ ['%']) = some ((decVal d : Nat) : Int) := by
  have hm : 'm' ∉ d := not_mem_of_digits hd (by decide)
  have hp : '%' ∉ d := not_mem_of_digits hd (by decide)
  have hmf : containsOne 'm' (d ++ ['%']) = false := containsOne_eq_false (by
    intro hmem
    rcases List.mem_append.mp hmem with h | h
    · exact hm h
    · simp at h)
  rw [node_cpu_token, if_neg (by simp [hmf]), removeOne_append_single hp, pyInt_digits hd hne]

theorem node_cpu_token_bare {d : List Char} (hd : ∀ c ∈ d, c.isDigit = true) (hne : d ≠ []) :
    node_cpu_token d = some ((decVal d : Nat) : Int) := by
  have hm : 'm' ∉ d := not_mem_of_digits hd (by decide)
  have hp : '%' ∉ d := not_mem_of_digits hd (by decide)
  rw [node_cpu_token, if_neg (by simp [containsOne_eq_false hm]), removeOne_of_not_mem hp,
    pyInt_digits hd hne]

/-! The claim theorems. -/

/-- C2: CPU parsing returns the numeric prefix of a `m`-suffixed token
unchanged as millicores, strips `%` and returns the bare number, and returns
an all-digit token as-is with no scaling; node path and pod path behave
identically. -/
theorem claim_cpu_parsing :
    (∀ t : List Char, node_cpu_token t = pod_cpu_token t) ∧
    (∀ d : List Char, (∀ c ∈ d, c.isDigit = true) → d ≠ [] →
      node_cpu_token (d ++ ['m']) = some ((decVal d : Nat) : Int) ∧
      node_cpu_token (d ++ ['%']) = some ((decVal d : Nat) : Int) ∧
      node_cpu_token d = some ((decVal d : Nat) : Int)) ∧
    node_cpu_token ("250m".data) = some 250 := by
  refine ⟨fun t => rfl, fun d hd hne => ⟨node_cpu_token_m hd hne, node_cpu_token_pct hd hne,
    node_cpu_token_bare hd hne⟩, rfl⟩

/-- Witness for C2 at the concrete tokens of the spec. -/
theorem claim_cpu_parsing_witness :
    node_cpu_token ("250m".data) = some 250 ∧ pod_cpu_token ("250m".data) = some 250 ∧
    node_cpu_token ("12%".data) = some 12 ∧ node_cpu_token ("7".data) = some 7 := by
  obtain ⟨hsame, hgen, _⟩ := claim_cpu_parsing
  refine ⟨(hgen ("250".data) (by decide) (by decide)).1, ?_,
    (hgen ("12".data) (by decide) (by decide)).2.1,
    (hgen ("7".data) (by decide) (by decide)).2.2⟩
  rw [← hsame ("250m".data)]
  exact (hgen ("250".data) (by decide) (by decide)).1

/-- C3: pod-path memory parsing to mebibytes: `Mi` unchanged, `Gi` times
1024, `Ki` divided by 1024; in particular 64Mi gives 64, 1Gi gives 1024 and
2048Ki gives 2. -/
theorem claim_pod_memory_parsing :
    (∀ d : List Char, (∀ c ∈ d, c.isDigit = true) → d ≠ [] →
      pod_memory_token (d ++ ['M', 'i']) = some ((decVal d : Nat) : Int) ∧
      pod_memory_token (d ++ ['G', 'i']) = some (((decVal d : Nat) : Int) * 1024) ∧
      pod_memory_token (d ++ ['K', 'i']) = some ((decVal d / 1024 : Nat) : Int)) ∧
    pod_memory_token ("64Mi".data) = some 64 ∧
    pod_memory_token ("1Gi".data) = some 1024 ∧
    pod_memory_token ("2048Ki".data) = some 2 := by
  refine ⟨fun d hd hne => ⟨pod_memory_token_mi hd hne, pod_memory_token_gi hd hne,
    pod_memory_token_ki hd hne⟩, rfl, rfl, rfl⟩

/-- Witness for C3 at the concrete digit string 2048. -/
theorem claim_pod_memory_parsing_witness :
    pod_memory_token ("2048Mi".data) = some 2048 ∧
    pod_memory_token ("2048Gi".data) = some 2097152 ∧
    pod_memory_token ("2048Ki".data) = some 2 := by
  obtain ⟨hgen, -, -, -⟩ := claim_pod_memory_parsing
  obtain ⟨h1, h2, h3⟩ := hgen ("2048".data) (by decide) (by decide)
  exact ⟨h1, h2, h3⟩

/-- C4 counterexample: the claim says a node-path `Mi` value is returned
unchanged and a `Gi` value is multiplied by 1024, but the code multiplies
`Mi` by 1024 and `Gi` by 1024 * 1024. -/
theorem claim_node_memory_counterexample :
    node_memory_token ("64Mi".data) = some 65536 ∧ (65536 : Int) ≠ 64 ∧
    node_memory_token ("1Gi".data) = some 1048576 ∧ (1048576 : Int) ≠ 1024 :=
  ⟨rfl, by decide, rfl, by decide⟩

/-- C4 amended: on the node path `Ki` is kept raw, `Mi` is multiplied by
1024 and `Gi` by 1024 * 1024, so node samples are in kibibytes, while the
pod path keeps `Mi` unchanged (mebibytes). -/
theorem claim_node_memory_amended :
    (∀ d : List Char, (∀ c ∈ d, c.isDigit = true) → d ≠ [] →
      node_memory_token (d ++ ['K', 'i']) = some ((decVal d : Nat) : Int) ∧
      node_memory_token (d ++ ['M', 'i']) = some (((decVal d : Nat) : Int) * 1024) ∧
      node_memory_token (d ++ ['G', 'i']) = some (((decVal d : Nat) : Int) * 1024 * 1024) ∧
      pod_memory_token (d ++ ['M', 'i']) = some ((decVal d : Nat) : Int)) ∧
    node_memory_token ("500Ki".data) = some 500 := by
  refine ⟨fun d hd hne => ⟨node_memory_token_ki hd hne, node_memory_token_mi hd hne,
    node_memory_token_gi hd hne, pod_memory_token_mi hd hne⟩, rfl⟩

/-- Witness for the amended C4 at the concrete digit string 64. -/
theorem claim_node_memory_amended_witness :
    node_memory_token ("64Ki".data) = some 64 ∧
    node_memory_token ("64Mi".data) = some 65536 ∧
    node_memory_token ("64Gi".data) = some 67108864 ∧
    pod_memory_token ("64Mi".data) = some 64 := by
  obtain ⟨hgen, -⟩ := claim_node_memory_amended
  obtain ⟨h1, h2, h3, h4⟩ := hgen ("64".data) (by decide) (by decide)
  exact ⟨h1, h2, h3, h4⟩

theorem lookup_allocated_eval {d suf : List Char} {v : Int}
    (hd : ∀ c ∈ d, c.isDigit = true) (hne : d ≠ [])
    (hsuf : ∀ c ∈ suf, pyIsSpace c = false)
    (htok : allocated_memory_token (d ++ suf) = some v) :
    lookup_allocated_memory (some (d ++ suf)) = Except.ok v := by
  have hnospace : ∀ c ∈ d ++ suf, pyIsSpace c = false := no_space_append hd hsuf
  have hstrip : stripL (d ++ suf) = d ++ suf := stripL_eq_self hnospace
  obtain ⟨c, cs, rfl⟩ : ∃ c cs, d = c :: cs := by
    cases d with
    | nil => exact absurd rfl hne
    | cons c cs => exact ⟨c, cs, rfl⟩
  have hsingle : splitWsL ((c :: cs) ++ suf) = [(c :: cs) ++ suf] :=
    splitWsL_single (by simp) hnospace
  simp only [List.cons_append] at hstrip hsingle htok ⊢
  simp only [lookup_allocated_memory, hstrip, List.isEmpty_cons, Bool.false_eq_true,
    if_false, hsingle, List.headD_cons, htok]

/-- C6: the image lookup substitutes the string unknown on a query failure
and never raises; the requested-memory lookup substitutes 0 on a query
failure and on an empty result, and otherwise converts `Mi` unchanged,
`Gi` times 1024 and `Ki` divided by 1024. -/
theorem claim_lookup_fallbacks :
    lookup_pod_image none = ("unknown".data) ∧
    lookup_allocated_memory none = Except.ok 0 ∧
    (∀ out, stripL out = [] → lookup_allocated_memory (some out) = Except.ok 0) ∧
    (∀ d : List Char, (∀ c ∈ d, c.isDigit = true) → d ≠ [] →
      lookup_allocated_memory (some (d ++ ['M', 'i'])) = Except.ok ((decVal d : Nat) : Int) ∧
      lookup_allocated_memory (some (d ++ ['G', 'i'])) =
        Except.ok (((decVal d : Nat) : Int) * 1024) ∧
      lookup_allocated_memory (some (d ++ ['K', 'i'])) =
        Except.ok ((decVal d / 1024 : Nat) : Int)) := by
  refine ⟨rfl, rfl, ?_, ?_⟩
  · intro out h
    simp [lookup_allocated_memory, h]
  · intro d hd hne
    exact ⟨lookup_allocated_eval hd hne (by decide) (allocated_memory_token_mi hd hne),
      lookup_allocated_eval hd hne (by decide) (allocated_memory_token_gi hd hne),
      lookup_allocated_eval hd hne (by decide) (allocated_memory_token_ki hd hne)⟩

/-- Witness for C6 at concrete lookup outcomes. -/
theorem claim_lookup_fallbacks_witness :
    lookup_allocated_memory (some ("   ".data)) = Except.ok 0 ∧
    lookup_allocated_memory (some ("600Mi".data)) = Except.ok 600 ∧
    lookup_allocated_memory (some ("2Gi".data)) = Except.ok 2048 ∧
    lookup_allocated_memory (some ("2048Ki".data)) = Except.ok 2 := by
  obtain ⟨-, -, hempty, hgen⟩ := claim_lookup_fallbacks
  refine ⟨hempty ("   ".data) (by decide), ?_, ?_, ?_⟩
  · exact (hgen ("600".data) (by decide) (by decide)).1
  · exact (hgen ("2".data) (by decide) (by decide)).2.1
  · exact (hgen ("2048".data) (by decide) (by decide)).2.2

/-- C7 counterexample: for a multi-container pod the image lookup does not
collapse to the first token; it returns the whole whitespace-joined result,
unlike the requested-memory lookup which does take the first token. -/
theorem claim_image_first_token_counterexample :
    lookup_pod_image (some ("nginx:1.0 redis:6".data)) = ("nginx:1.0 redis:6".data) ∧
    ("nginx:1.0 redis:6".data) ≠ ("nginx:1.0".data) ∧
    lookup_allocated_memory (some ("100Mi 200Mi".data)) = Except.ok 100 :=
  ⟨rfl, by decide, rfl⟩

/-- C7 amended: the image lookup returns the entire stripped query result
(all container images, whitespace-joined); only the requested-memory lookup
restricts to the first token of its result. -/
theorem claim_image_first_token_amended :
    (∀ out, lookup_pod_image (some out) = stripL out) ∧
    lookup_pod_image (some ("nginx:1.0 redis:6".data)) = ("nginx:1.0 redis:6".data) ∧
    lookup_allocated_memory (some ("100Mi 200Mi".data)) = Except.ok 100 ∧
    lookup_allocated_memory (some ("100Mi 1Gi".data)) = Except.ok 100 :=
  ⟨fun _ => rfl, rfl, rfl, rfl⟩

/-- Node usage text whose last line carries the digit-free CPU token abc. -/
def badNodeText : List Char :=
  ("NAME CPU MEM\nnode1 100m 64Mi\nnode2 abc 64Mi".data)

/-- Pod usage text whose second data line carries the digit-free CPU token
abc; the first data line is well formed. -/
def mixedPodText : List Char :=
  ("NAMESPACE NAME CPU MEM EXTRA\nd p1 100m 64Mi 1%\nd p2 abc 64Mi 1%".data)

/-- C5 counterexample: a malformed quantity token on the node path does not
drop just its line; `parse_node_metrics` raises, so the well-formed line of
the same text is lost too and the error propagates into the cycle. -/
theorem claim_malformed_line_counterexample :
    parse_node_metrics badNodeText 0 = Except.error () ∧
    ∀ rows, parse_node_metrics badNodeText 0 ≠ Except.ok rows := by
  have h : parse_node_metrics badNodeText 0 = Except.error () := rfl
  exact ⟨h, fun rows hr => by rw [h] at hr; exact Except.noConfusion hr⟩

/-- C5 amended: on the pod path a malformed token drops only its own line
and the well-formed line is still appended; on the node path a malformed
token raises out of the parse, appending nothing. -/
theorem claim_malformed_line_amended :
    (∀ ts : Nat, parse_pod_metrics (fun _ _ => none) mixedPodText ts =
      [⟨ts, "p1".data, "d".data, 100, 64, "unknown".data⟩]) ∧
    (∀ ts : Nat, parse_node_metrics badNodeText ts = Except.error ()) :=
  ⟨fun _ => rfl, fun _ => rfl⟩

/-- C8 counterexample: a node-path parse error is fatal to the sampling
cycle: the cycle body raises instead of proceeding. -/
theorem claim_loop_resilience_counterexample :
    collect_cycle (some badNodeText) none (fun _ _ => none) 0 ⟨[], []⟩ = Except.error () ∧
    ∀ st, collect_cycle (some badNodeText) none (fun _ _ => none) 0 ⟨[], []⟩ ≠
      Except.ok st := by
  have h : collect_cycle (some badNodeText) none (fun _ _ => none) 0 ⟨[], []⟩ =
      Except.error () := rfl
  exact ⟨h, fun st hs => by rw [h] at hs; exact Except.noConfusion hs⟩

/-- C8 amended: failed fetches are harmless (both failing leaves the state
unchanged and the cycle succeeds), and with the node fetch failed the cycle
succeeds whatever the pod fetch returned, because the pod path catches its
errors per line; only a node-path parse error aborts the cycle. -/
theorem claim_loop_resilience_amended :
    (∀ (q : List Char → List Char → Option (List Char)) (ts : Nat) (st : Tables),
      collect_cycle none none q ts st = Except.ok st) ∧
    (∀ (podFetch : Option (List Char)) (q : List Char → List Char → Option (List Char))
      (ts : Nat) (st : Tables),
      ∃ st', collect_cycle none podFetch q ts st = Except.ok st') := by
  constructor
  · intro q ts st
    simp [collect_cycle]
  · intro podFetch q ts st
    exact ⟨_, rfl⟩

/-! Report-level lemmas. -/

theorem mapExcept_ok_length {α β ε : Type} {f : α → Except ε β} :
    ∀ {l : List α} {ys : List β}, mapExcept f l = Except.ok ys → ys.length = l.length
  | [], ys, h => by
    simp only [mapExcept] at h
    injection h with h'
    simp [← h']
  | x :: xs, ys, h => by
    simp only [mapExcept] at h
    cases hx : f x with
    | error e => rw [hx] at h; exact Except.noConfusion h
    | ok b =>
      rw [hx] at h
      cases hrec : mapExcept f xs with
      | error e => rw [hrec] at h; exact Except.noConfusion h
      | ok bs =>
        rw [hrec] at h
        injection h with h'
        subst h'
        simp [mapExcept_ok_length hrec]

theorem mapExcept_ok_mem {α β ε : Type} {f : α → Except ε β} :
    ∀ {l : List α} {ys : List β} {y : β}, mapExcept f l = Except.ok ys → y ∈ ys →
      ∃ x ∈ l, f x = Except.ok y
  | [], ys, y, h, hm => by
    simp only [mapExcept] at h
    injection h with h'
    subst h'
    exact absurd hm (List.not_mem_nil y)
  | x :: xs, ys, y, h, hm => by
    simp only [mapExcept] at h
    cases hx : f x with
    | error e => rw [hx] at h; exact Except.noConfusion h
    | ok b =>
      rw [hx] at h
      cases hrec : mapExcept f xs with
      | error e => rw [hrec] at h; exact Except.noConfusion h
      | ok bs =>
        rw [hrec] at h
        injection h with h'
        subst h'
        rcases List.mem_cons.mp hm with rfl | hm'
        · exact ⟨x, List.mem_cons_self x xs, hx⟩
        · obtain ⟨x', hx', hfx'⟩ := mapExcept_ok_mem hrec hm'
          exact ⟨x', List.mem_cons_of_mem x hx', hfx'⟩

theorem computeRec_ok_proj {memQ : List Char → List Char → Option (List Char)}
    {rows : List PodRow} {img : List Char} {rec : Recommendation}
    (h : computeRec memQ rows img = Except.ok rec) :
    rec.image = img ∧ rec.requested_cpu = rec.max_cpu ∧
    ∃ r0 rest a, imageGroup rows img = r0 :: rest ∧
      lookup_allocated_memory (memQ r0.ns r0.pod) = Except.ok a ∧
      rec.requested_memory = (a : ℚ) := by
  cases hg : imageGroup rows img with
  | nil =>
    simp [computeRec, hg] at h
  | cons r0 rest =>
    cases hl : lookup_allocated_memory (memQ r0.ns r0.pod) with
    | error e => simp [computeRec, hg, hl] at h
    | ok a =>
      simp only [computeRec, hg, hl] at h
      injection h with h'
      subst h'
      exact ⟨rfl, rfl, r0, rest, a, rfl, hl, rfl⟩

/-! Concrete tables used to exercise the report and the summary. -/

def nginxImage : List Char := "nginx:1.0".data

def nginxRow0 : PodRow := ⟨0, "p1".data, "default".data, 100, 400, nginxImage⟩

def nginxRow1 : PodRow := ⟨1, "p1".data, "default".data, 200, 500, nginxImage⟩

def nginxRow2 : PodRow := ⟨2, "p1".data, "default".data, 300, 450, nginxImage⟩

/-- Pod table of the spec's worked example: cpu values 100, 200, 300 and
maximum memory 500 for one image. -/
def nginxRows : List PodRow := [nginxRow0, nginxRow1, nginxRow2]

/-- Allocation query answering 600Mi for every pod. -/
def nginxQuery : List Char → List Char → Option (List Char) := fun _ _ => some ("600Mi".data)

/-- The report record the worked example should produce. -/
def nginxRec : Recommendation :=
  ⟨nginxImage, 200, 300, 450, 500, 300, 600, 2000 / 9, 5000 / 9, 27 / 20, 27 / 25⟩

theorem nginx_computeRec :
    computeRec nginxQuery nginxRows nginxImage = Except.ok nginxRec := by
  have hg : imageGroup nginxRows nginxImage = nginxRow0 :: [nginxRow1, nginxRow2] := rfl
  have ha : lookup_allocated_memory (nginxQuery nginxRow0.ns nginxRow0.pod) =
      Except.ok 600 := rfl
  have hmapc : (nginxRow0 :: [nginxRow1, nginxRow2]).map (fun r => r.cpu) =
      [100, 200, 300] := rfl
  have hmapm : (nginxRow0 :: [nginxRow1, nginxRow2]).map (fun r => r.memory) =
      [400, 500, 450] := rfl
  have hmeanc : meanQ [(100 : Int), 200, 300] = 200 := by
    simp [meanQ]
    norm_num
  have hmeanm : meanQ [(400 : Int), 500, 450] = 450 := by
    simp [meanQ]
    norm_num
  have hmaxc : listMax [(100 : Int), 200, 300] = 300 := by decide
  have hmaxm : listMax [(400 : Int), 500, 450] = 500 := by decide
  simp only [computeRec, hg, ha, hmapc, hmapm, hmeanc, hmeanm, hmaxc, hmaxm]
  norm_num [nginxRec]

theorem nginx_report_eval : get_report nginxQuery nginxRows = Except.ok [nginxRec] := by
  have hu : uniqueImages nginxRows = [nginxImage] := rfl
  unfold get_report
  rw [if_neg (by decide : ¬(nginxRows.isEmpty = true)), hu]
  simp only [mapExcept, nginx_computeRec]

/-- C1: the report holds one record per distinct image; per image the record
carries the group's mean and maximum cpu and memory, the allocation looked
up from the group's first row, and the recommendation and ratio formulas of
the spec; on the worked example it yields exactly the spec's numbers. -/
theorem claim_report_formula :
    (∀ (memQ : List Char → List Char → Option (List Char)) (rows : List PodRow)
      (rep : List Recommendation), get_report memQ rows = Except.ok rep →
        rep.length = (uniqueImages rows).length) ∧
    (∀ (memQ : List Char → List Char → Option (List Char)) (rows : List PodRow)
      (img : List Char) (r0 : PodRow) (rest : List PodRow) (a : Int),
      imageGroup rows img = r0 :: rest →
      lookup_allocated_memory (memQ r0.ns r0.pod) = Except.ok a →
      ∃ rec, computeRec memQ rows img = Except.ok rec ∧
        rec.image = img ∧
        rec.avg_cpu = meanQ ((r0 :: rest).map fun r => r.cpu) ∧
        rec.max_cpu = ((listMax ((r0 :: rest).map fun r => r.cpu) : Int) : ℚ) ∧
        rec.avg_memory = meanQ ((r0 :: rest).map fun r => r.memory) ∧
        rec.max_memory = ((listMax ((r0 :: rest).map fun r => r.memory) : Int) : ℚ) ∧
        rec.requested_memory = (a : ℚ) ∧
        rec.recommended_cpu = (if rec.avg_cpu > 0 then rec.avg_cpu / (9 / 10) else 1) ∧
        rec.recommended_memory = (if rec.max_memory > 0 then rec.max_memory / (9 / 10) else 1) ∧
        rec.cpu_over_provisioned =
          (if rec.recommended_cpu > 0 then rec.max_cpu / rec.recommended_cpu else 0) ∧
        rec.memory_over_provisioned =
          (if rec.recommended_memory > 0 then rec.requested_memory / rec.recommended_memory
            else 0)) ∧
    get_report nginxQuery nginxRows = Except.ok [nginxRec] := by
  refine ⟨?_, ?_, nginx_report_eval⟩
  · intro memQ rows rep h
    cases rows with
    | nil =>
      unfold get_report at h
      simp only [List.isEmpty_nil, if_true] at h
      injection h with h'
      simp [← h', uniqueImages]
    | cons r rs =>
      unfold get_report at h
      simp only [List.isEmpty_cons, Bool.false_eq_true, if_false] at h
      exact mapExcept_ok_length h
  · intro memQ rows img r0 rest a h1 h2
    simp only [computeRec, h1, h2]
    exact ⟨_, rfl, rfl, rfl, rfl, rfl, rfl, rfl, rfl, rfl, rfl, rfl⟩

/-- Witness for C1 on the worked example. -/
theorem claim_report_formula_witness :
    [nginxRec].length = (uniqueImages nginxRows).length ∧
    nginxRec.requested_memory = ((600 : Int) : ℚ) := by
  obtain ⟨hlen, hgen, hconc⟩ := claim_report_formula
  refine ⟨hlen nginxQuery nginxRows [nginxRec] hconc, ?_⟩
  obtain ⟨rec, hrec, -, -, -, -, -, hreqm, -, -, -, -⟩ :=
    hgen nginxQuery nginxRows nginxImage nginxRow0 [nginxRow1, nginxRow2] 600 rfl rfl
  have he : rec = nginxRec := by
    have hnc := nginx_computeRec
    rw [hrec] at hnc
    injection hnc with h'
  rw [← he]
  exact hreqm

/-- C10: every report record's requested cpu field is the group's maximum
observed cpu, not a cluster lookup; only the requested memory comes from the
external allocation lookup. -/
theorem claim_requested_cpu_placeholder :
    ∀ (memQ : List Char → List Char → Option (List Char)) (rows : List PodRow)
      (rep : List Recommendation), get_report memQ rows = Except.ok rep →
      ∀ rec ∈ rep, rec.requested_cpu = rec.max_cpu ∧
        ∃ r0 rest a, imageGroup rows rec.image = r0 :: rest ∧
          lookup_allocated_memory (memQ r0.ns r0.pod) = Except.ok a ∧
          rec.requested_memory = (a : ℚ) := by
  intro memQ rows rep h rec hm
  cases rows with
  | nil =>
    unfold get_report at h
    simp only [List.isEmpty_nil, if_true] at h
    injection h with h'
    subst h'
    exact absurd hm (List.not_mem_nil rec)
  | cons r rs =>
    unfold get_report at h
    simp only [List.isEmpty_cons, Bool.false_eq_true, if_false] at h
    obtain ⟨img, himgmem, hcomp⟩ := mapExcept_ok_mem h hm
    obtain ⟨himage, hreqcpu, r0, rest, a, hg, hl, hreqm⟩ := computeRec_ok_proj hcomp
    subst himage
    exact ⟨hreqcpu, r0, rest, a, hg, hl, hreqm⟩

/-- Witness for C10 on the worked example. -/
theorem claim_requested_cpu_placeholder_witness :
    nginxRec.requested_cpu = nginxRec.max_cpu ∧
    ∃ r0 rest a, imageGroup nginxRows nginxRec.image = r0 :: rest ∧
      lookup_allocated_memory (nginxQuery r0.ns r0.pod) = Except.ok a ∧
      nginxRec.requested_memory = (a : ℚ) :=
  claim_requested_cpu_placeholder nginxQuery nginxRows [nginxRec] nginx_report_eval
    nginxRec (List.mem_singleton.mpr rfl)

/-! Concrete table on which the shutdown summary and the report disagree. -/

def ovImage : List Char := "img:1".data

def ovRow0 : PodRow := ⟨0, "p1".data, "default".data, 100, 500, ovImage⟩

def ovRow1 : PodRow := ⟨1, "p1".data, "default".data, 300, 500, ovImage⟩

/-- Two samples of one image with cpu 100 and 300 and memory 500 each. -/
def ovRows : List PodRow := [ovRow0, ovRow1]

/-- Allocation query answering 600Mi for every pod. -/
def ovQuery : List Char → List Char → Option (List Char) := fun _ _ => some ("600Mi".data)

/-- The report record for `ovRows`: average cpu 200, maximum cpu 300. -/
def ovRec : Recommendation :=
  ⟨ovImage, 200, 300, 500, 500, 300, 600, 2000 / 9, 5000 / 9, 27 / 20, 27 / 25⟩

theorem ov_computeRec : computeRec ovQuery ovRows ovImage = Except.ok ovRec := by
  have hg : imageGroup ovRows ovImage = ovRow0 :: [ovRow1] := rfl
  have ha : lookup_allocated_memory (ovQuery ovRow0.ns ovRow0.pod) = Except.ok 600 := rfl
  have hmapc : (ovRow0 :: [ovRow1]).map (fun r => r.cpu) = [100, 300] := rfl
  have hmapm : (ovRow0 :: [ovRow1]).map (fun r => r.memory) = [500, 500] := rfl
  have hmeanc : meanQ [(100 : Int), 300] = 200 := by
    simp [meanQ]
    norm_num
  have hmeanm : meanQ [(500 : Int), 500] = 500 := by
    simp [meanQ]
    norm_num
  have hmaxc : listMax [(100 : Int), 300] = 300 := by decide
  have hmaxm : listMax [(500 : Int), 500] = 500 := by decide
  simp only [computeRec, hg, ha, hmapc, hmapm, hmeanc, hmeanm, hmaxc, hmaxm]
  norm_num [ovRec]

theorem ov_report_eval : get_report ovQuery ovRows = Except.ok [ovRec] := by
  have hu : uniqueImages ovRows = [ovImage] := rfl
  unfold get_report
  rw [if_neg (by decide : ¬(ovRows.isEmpty = true)), hu]
  simp only [mapExcept, ov_computeRec]

/-- C9 counterexample: on a table with cpu samples 100 and 300, memory 500
and allocation 600, the shutdown summary recommends cpu 1000/3 and memory
540 while the report recommends cpu 2000/9 and memory 5000/9 for the same
image, so the summary does not use the report's recommendation formula. -/
theorem claim_summary_formula_counterexample :
    summarize_image_cpu_rec ovRows ovImage = some (1000 / 3) ∧
    summarize_image_mem_rec ovQuery ovRows ovImage = Except.ok (some 540) ∧
    get_report ovQuery ovRows = Except.ok [ovRec] ∧
    ovRec.recommended_cpu = 2000 / 9 ∧ ovRec.recommended_memory = 5000 / 9 ∧
    (1000 / 3 : ℚ) ≠ 2000 / 9 ∧ (540 : ℚ) ≠ 5000 / 9 := by
  refine ⟨?_, ?_, ov_report_eval, rfl, rfl, by norm_num, by norm_num⟩
  · have hg : imageGroup ovRows ovImage = ovRow0 :: [ovRow1] := rfl
    have hmap : (ovRow0 :: [ovRow1]).map (fun r => r.cpu) = [100, 300] := rfl
    have hmax : listMax [(100 : Int), 300] = 300 := by decide
    simp only [summarize_image_cpu_rec, hg, hmap, hmax]
    norm_num
  · have hg : imageGroup ovRows ovImage = ovRow0 :: [ovRow1] := rfl
    have hmap : (ovRow0 :: [ovRow1]).map (fun r => r.memory) = [500, 500] := rfl
    have hmax : listMax [(500 : Int), 500] = 500 := by decide
    have ha : lookup_allocated_memory (ovQuery ovRow0.ns ovRow0.pod) = Except.ok 600 := rfl
    simp only [summarize_image_mem_rec, hg, hmap, hmax, ha]
    norm_num

/-- C9 amended: for an image with positive usage the summary recommends
`max_cpu / 0.9` for cpu, not the report's `avg_cpu / 0.9`, and recommends
`allocated * 0.9` for memory when the looked-up allocation is positive,
falling back to the report's `max_memory / 0.9` only otherwise. -/
theorem claim_summary_formula_amended :
    ∀ (memQ : List Char → List Char → Option (List Char)) (rows : List PodRow)
      (img : List Char) (r0 : PodRow) (rest : List PodRow) (a : Int),
      imageGroup rows img = r0 :: rest →
      lookup_allocated_memory (memQ r0.ns r0.pod) = Except.ok a →
      (listMax ((r0 :: rest).map fun r => r.cpu) > 0 →
        summarize_image_cpu_rec rows img =
          some (((listMax ((r0 :: rest).map fun r => r.cpu) : Int) : ℚ) / (9 / 10))) ∧
      (listMax ((r0 :: rest).map fun r => r.memory) > 0 →
        summarize_image_mem_rec memQ rows img =
          Except.ok (some (if a > 0 then (a : ℚ) * (9 / 10)
            else ((listMax ((r0 :: rest).map fun r => r.memory) : Int) : ℚ) / (9 / 10)))) := by
  intro memQ rows img r0 rest a h1 h2
  constructor
  · intro hpos
    simp only [summarize_image_cpu_rec, h1]
    rw [if_pos hpos]
  · intro hpos
    simp only [summarize_image_mem_rec, h1]
    rw [if_pos hpos]
    simp only [h2]

/-- Witness for the amended C9 on the concrete table. -/
theorem claim_summary_formula_amended_witness :
    summarize_image_cpu_rec ovRows ovImage = some (1000 / 3) ∧
    summarize_image_mem_rec ovQuery ovRows ovImage = Except.ok (some 540) := by
  have h := claim_summary_formula_amended ovQuery ovRows ovImage ovRow0 [ovRow1] 600 rfl rfl
  have hmaxc : listMax ((ovRow0 :: [ovRow1]).map fun r => r.cpu) = 300 := by decide
  have hmaxm : listMax ((ovRow0 :: [ovRow1]).map fun r => r.memory) = 500 := by decide
  constructor
  · have h1 := h.1 (by rw [hmaxc]; norm_num)
    rw [hmaxc] at h1
    rw [h1]
    norm_num
  · have h2 := h.2 (by rw [hmaxm]; norm_num)
    rw [hmaxm] at h2
    rw [h2]
    norm_num

end KubeTrim
